/-
Verification of the skew_openai / langmesh SDK core
(src/skew_openai/{types,telemetry,wrapper}.py) against its
natural-language specification.

The Python source is shallowly embedded: dataclasses become structures,
the telemetry client's mutable state becomes explicit state passing,
Python dicts become association lists with Python's insertion-order
update semantics, the random draw of `random.random()` becomes an
explicit rational parameter in [0,1), and in-place mutation of a
caller-supplied dict is modelled with an explicit heap of references.
-/

import Mathlib

set_option autoImplicit false

namespace SkewOpenAI

/-! ### Python dict model (string-keyed), as used for `extra_headers`

`dictInsert` mirrors `d[k] = v` / one key of `d.update({...})`:
if the key is present its value is replaced in place (entry order kept),
otherwise the pair is appended at the end.  `dictGet` mirrors `d.get(k)`. -/

abbrev Headers := List (String × String)

def dictGet : Headers → String → Option String
  | [], _ => none
  | (k', v') :: rest, k => if k' = k then some v' else dictGet rest k

def dictInsert : Headers → String → String → Headers
  | [], k, v => [(k, v)]
  | (k', v') :: rest, k, v =>
    if k' = k then (k', v) :: rest else (k', v') :: dictInsert rest k v

theorem dictGet_dictInsert_self (d : Headers) (k v : String) :
    dictGet (dictInsert d k v) k = some v := by
  induction d with
  | nil => simp [dictInsert, dictGet]
  | cons hd tl ih =>
    by_cases h : hd.1 = k
    · simp [dictInsert, dictGet, h]
    · simp [dictInsert, dictGet, h, ih]

theorem dictGet_dictInsert_ne (d : Headers) (k v k' : String) (h : k' ≠ k) :
    dictGet (dictInsert d k v) k' = dictGet d k' := by
  induction d with
  | nil => simp [dictInsert, dictGet, Ne.symm h]
  | cons hd tl ih =>
    by_cases hk : hd.1 = k
    · subst hk
      simp [dictInsert, dictGet, Ne.symm h]
    · by_cases hk' : hd.1 = k'
      · simp [dictInsert, dictGet, hk, hk', h]
      · simp [dictInsert, dictGet, hk, hk', ih]

/-! ### types.py : model pricing and `calculate_cost`

Prices are per million tokens; Python's float division is embedded in ℚ,
where every constant of the table is exact. -/

def MODEL_PRICING : List (String × ℚ × ℚ) :=
  [("gpt-4o", 2.5, 10.0),
   ("gpt-4o-mini", 0.15, 0.6),
   ("gpt-4-turbo", 10.0, 30.0),
   ("gpt-4", 30.0, 60.0),
   ("gpt-3.5-turbo", 0.5, 1.5),
   ("o1", 15.0, 60.0),
   ("o1-mini", 3.0, 12.0),
   ("o3-mini", 1.1, 4.4),
   ("text-embedding-3-small", 0.02, 0),
   ("text-embedding-3-large", 0.13, 0)]

/-- `MODEL_PRICING.get(model)` -/
def lookupPricing : List (String × ℚ × ℚ) → String → Option (ℚ × ℚ)
  | [], _ => none
  | (m, p) :: rest, model => if m = model then some p else lookupPricing rest model

/-- types.py `calculate_cost`: table lookup with a flat fallback rate of
`0.00001` per token for unknown models. -/
def calculate_cost (model : String) (prompt_tokens completion_tokens : ℕ) : ℚ :=
  match lookupPricing MODEL_PRICING model with
  | none => ((prompt_tokens : ℚ) + (completion_tokens : ℚ)) * 0.00001
  | some pricing =>
      ((prompt_tokens : ℚ) / 1000000) * pricing.1
        + ((completion_tokens : ℚ) / 1000000) * pricing.2

theorem lookupPricing_nonneg (l : List (String × ℚ × ℚ))
    (hl : ∀ e ∈ l, 0 ≤ e.2.1 ∧ 0 ≤ e.2.2) (m : String) (p : ℚ × ℚ)
    (h : lookupPricing l m = some p) : 0 ≤ p.1 ∧ 0 ≤ p.2 := by
  induction l with
  | nil => simp [lookupPricing] at h
  | cons hd tl ih =>
    by_cases hm : hd.1 = m
    · simp [lookupPricing, hm] at h
      exact h ▸ hl hd (List.mem_cons_self hd tl)
    · simp [lookupPricing, hm] at h
      exact ih (fun e he => hl e (List.mem_cons_of_mem hd he)) h

theorem calculate_cost_nonneg (model : String) (p c : ℕ) :
    0 ≤ calculate_cost model p c := by
  unfold calculate_cost
  cases h : lookupPricing MODEL_PRICING model with
  | none => positivity
  | some pricing =>
    have hp := lookupPricing_nonneg MODEL_PRICING
      (by intro e he; fin_cases he <;> norm_num) model pricing h
    have h1 : (0 : ℚ) ≤ ((p : ℚ) / 1000000) * pricing.1 :=
      mul_nonneg (by positivity) hp.1
    have h2 : (0 : ℚ) ≤ ((c : ℚ) / 1000000) * pricing.2 :=
      mul_nonneg (by positivity) hp.2
    simpa using add_nonneg h1 h2

/-! ### types.py : configuration dataclasses -/

/-- types.py `TelemetryConfig` (a plain dataclass: fields are stored as
given, with these defaults, and no validation is performed). -/
structure TelemetryConfig where
  enabled : Bool := true
  include_prompts : Bool := false
  include_responses : Bool := false
  sample_rate : ℚ := 1.0
  batch_size : ℕ := 10
  flush_interval_seconds : ℚ := 5.0
  endpoint : String := "https://api.skew.ai/v1/telemetry"
deriving Repr, DecidableEq

/-- types.py `ProxyConfig` -/
structure ProxyConfig where
  enabled : Bool := false
  fail_open : Bool := true
  base_url : String := "https://api.skew.ai/v1/openai"
  timeout_seconds : ℚ := 30.0
deriving Repr, DecidableEq

/-- types.py full SDK configuration (`SkewConfig`, imported by wrapper.py as
`langmeshConfig`). -/
structure langmeshConfig where
  api_key : String
  org_id : Option String := none
  project_id : Option String := none
  telemetry : TelemetryConfig := {}
  proxy : ProxyConfig := {}
deriving Repr, DecidableEq

/-- wrapper.py `langmeshWrapper.__init__`: builds the stored configuration
from the constructor arguments.  The `sample_rate` argument is passed
through to `TelemetryConfig` unchanged — there is no clamping and no
range check anywhere on this path. -/
def langmeshWrapper_init_config (api_key : String) (org_id project_id : Option String)
    (telemetry_enabled : Bool) (include_prompts : Bool) (sample_rate : ℚ)
    (proxy_enabled : Bool) (fail_open : Bool) : langmeshConfig :=
  { api_key := api_key
    org_id := org_id
    project_id := project_id
    telemetry := { enabled := telemetry_enabled
                   include_prompts := include_prompts
                   sample_rate := sample_rate }
    proxy := { enabled := proxy_enabled, fail_open := fail_open } }

/-! ### telemetry.py : `TelemetryClient` as an explicit state machine

The mutable fields `_buffer`, `_paused` and the flush timer become a state
record (`timerScheduled` models whether a `threading.Timer` for the next
tick is currently pending).  The buffer is generic in the payload type,
matching the dynamically-typed Python list.  `random.random()` becomes an
explicit draw `d : ℚ` with `0 ≤ d < 1`, and the network becomes a
function `net` from the batch to a success flag. -/

structure TelemetryState (P : Type) where
  buffer : List P
  paused : Bool
  timerScheduled : Bool
deriving Repr, DecidableEq

variable {P : Type}

/-- `TelemetryClient.__init__`: empty buffer, not paused, and the periodic
flush timer is started iff `config.enabled`. -/
def TelemetryClient.init (cfg : TelemetryConfig) : TelemetryState P :=
  { buffer := [], paused := false, timerScheduled := cfg.enabled }

/-- `TelemetryClient.submit`: returns (not enabled or paused) or when the
sampling draw exceeds `sample_rate`; otherwise appends to the buffer and,
if the buffer length has reached `batch_size`, triggers an asynchronous
flush.  The returned `Bool` records whether `_flush_async` was started. -/
def TelemetryClient.submit (cfg : TelemetryConfig) (st : TelemetryState P)
    (draw : ℚ) (payload : P) : TelemetryState P × Bool :=
  if ¬cfg.enabled ∨ st.paused then (st, false)
  else if cfg.sample_rate < draw then (st, false)
  else
    let buffer := st.buffer ++ [payload]
    ({ st with buffer := buffer }, decide (cfg.batch_size ≤ buffer.length))

/-- `TelemetryClient.flush`: under the lock, an empty buffer returns at
once; otherwise the whole buffer is copied out and cleared before any
network I/O.  The send of the removed batch is then attempted once inside
`try/except Exception: pass`, so the function's outcome never depends on
`net` and carries no error channel.  The second component lists the
delivery attempts made, each as (batch, network success). -/
def TelemetryClient.flush (net : List P → Bool) (st : TelemetryState P) :
    TelemetryState P × List (List P × Bool) :=
  if st.buffer.isEmpty then (st, [])
  else ({ st with buffer := [] }, [(st.buffer, net st.buffer)])

/-- `TelemetryClient.pause`: sets `_paused := True` and nothing else. -/
def TelemetryClient.pause (st : TelemetryState P) : TelemetryState P :=
  { st with paused := true }

/-- `TelemetryClient.resume`: sets `_paused := False` and nothing else. -/
def TelemetryClient.resume (st : TelemetryState P) : TelemetryState P :=
  { st with paused := false }

/-- `TelemetryClient.destroy`: cancels the pending timer and runs one final
synchronous flush. -/
def TelemetryClient.destroy (net : List P → Bool) (st : TelemetryState P) :
    TelemetryState P × List (List P × Bool) :=
  let st1 : TelemetryState P := { st with timerScheduled := false }
  TelemetryClient.flush net st1

/-- One firing of the periodic timer (`flush_and_reschedule` in
`_start_flush_timer`): if a timer is pending, its callback runs `flush()`
and then schedules the next tick only when `config.enabled and not
self._paused`; otherwise no timer is pending and nothing happens. -/
def TelemetryClient.tick (cfg : TelemetryConfig) (net : List P → Bool)
    (st : TelemetryState P) : TelemetryState P × List (List P × Bool) :=
  if st.timerScheduled then
    let (st1, sent) := TelemetryClient.flush net st
    ({ st1 with timerScheduled := cfg.enabled && !st.paused }, sent)
  else (st, [])

/-- The externally driven events of a `TelemetryClient`'s life relevant to
the pause/timer claims: `pause()`, `resume()`, and a periodic-timer tick. -/
inductive TOp where
  | pause
  | resume
  | tick
deriving Repr, DecidableEq

def TelemetryClient.stepOp (cfg : TelemetryConfig) (net : List P → Bool)
    (st : TelemetryState P) : TOp → TelemetryState P
  | .pause => TelemetryClient.pause st
  | .resume => TelemetryClient.resume st
  | .tick => (TelemetryClient.tick cfg net st).1

def TelemetryClient.runOps (cfg : TelemetryConfig) (net : List P → Bool)
    (st : TelemetryState P) : List TOp → TelemetryState P
  | [] => st
  | op :: ops => TelemetryClient.runOps cfg net (TelemetryClient.stepOp cfg net st op) ops

/-- Folding `submit` over a list of (draw, payload) pairs, counting how
many of the submits triggered an asynchronous flush. -/
def TelemetryClient.submitMany (cfg : TelemetryConfig) (st : TelemetryState P) :
    List (ℚ × P) → TelemetryState P × ℕ
  | [] => (st, 0)
  | (d, p) :: rest =>
    let (st1, trig) := TelemetryClient.submit cfg st d p
    let (st2, n) := TelemetryClient.submitMany cfg st1 rest
    (st2, (if trig then 1 else 0) + n)

/-! ### wrapper.py : the transparent proxy

A Python exception is identified by its type name and message, which is
exactly what the spec's "same type and message" talks about.  Because
wrapper.py mutates the caller's `extra_headers` dict in place
(`headers = kwargs.get("extra_headers", {})` followed by
`headers.update({...})`), header dicts live in an explicit heap of
references and `kwargs` carries an optional reference to one. -/

structure PyError where
  ty : String
  msg : String
deriving Repr, DecidableEq

/-- Result of calling a Python callable: a returned value or a raised
exception. -/
inductive CallResult (R : Type) where
  | ok (value : R)
  | err (e : PyError)
deriving Repr, DecidableEq

abbrev Ref := ℕ

abbrev Heap := Ref → Headers

def heapUpdate (h : Heap) (r : Ref) (d : Headers) : Heap :=
  fun r' => if r' = r then d else h r'

/-- The keyword arguments of an instrumented call: an optional reference
to the caller's `extra_headers` dict, plus the remaining keyword
arguments, abstract in `A` (model, messages, …). -/
structure Kwargs (A : Type) where
  extraHeaders : Option Ref
  rest : A
deriving Repr, DecidableEq

/-- telemetry.py `generate_request_id`, with the two nondeterministic
inputs (`time.time()*1000` in ms and `uuid.uuid4().hex`) made explicit:
`f"req_{int(time.time() * 1000)}_{uuid.uuid4().hex[:9]}"`. -/
def generate_request_id (timeMs : ℕ) (uuidHex : String) : String :=
  "req_" ++ toString timeMs ++ "_" ++ (uuidHex.take 9)

/-- A string matches the request-id generator's format iff it is a
possible output of `generate_request_id`. -/
def RequestIdFormat (s : String) : Prop :=
  ∃ timeMs uuidHex, s = generate_request_id timeMs uuidHex

/-- The three headers injected by `_wrap_method` when proxy mode is
active, applied to an existing headers dict with Python's
`dict.update` semantics, in the order of the dict literal at
wrapper.py lines 92–96.  The org-id value is `self._config.org_id or ""`. -/
def injectProxyHeaders (apiKey : String) (requestId : String) (orgId : Option String)
    (d : Headers) : Headers :=
  dictInsert
    (dictInsert
      (dictInsert d "X-langmesh-API-Key" apiKey)
      "X-langmesh-Request-ID" requestId)
    "X-langmesh-Org-ID" (match orgId with | some o => o | none => "")

/-- wrapper.py lines 89–97: when `self._proxy_active`, take the caller's
`extra_headers` dict if present (the same object, mutated in place) or a
fresh empty dict at `freshRef` otherwise, update it with the three
langmesh headers, and store it back under `"extra_headers"`.  When proxy
mode is off this step does nothing. -/
def injectStep {A : Type} (proxyActive : Bool) (apiKey : String) (requestId : String)
    (orgId : Option String) (freshRef : Ref) (heap : Heap) (kwargs : Kwargs A) :
    Heap × Kwargs A :=
  if proxyActive then
    match kwargs.extraHeaders with
    | some r =>
        (heapUpdate heap r (injectProxyHeaders apiKey requestId orgId (heap r)), kwargs)
    | none =>
        (heapUpdate heap freshRef (injectProxyHeaders apiKey requestId orgId []),
         { kwargs with extraHeaders := some freshRef })
  else (heap, kwargs)

/-- The arguments `_wrap_method`'s closure hands to
`_send_telemetry_async` (which builds and submits the payload on a
daemon thread, inside `try/except Exception: pass`): the request id, the
leaf method name, the result on success, and the raised error on
failure. -/
structure TelemetrySpawn (R : Type) where
  requestId : String
  methodName : String
  result : Option R
  error : Option PyError
deriving Repr, DecidableEq

/-- wrapper.py `_wrap_method`'s closure `wrapped`: generate a request id,
inject proxy headers if active, invoke the underlying callable with the
caller's (possibly header-augmented) kwargs, spawn a telemetry
submission, and return the underlying result — re-raising the underlying
error unaltered in the error case.  `cfg` is the wrapper's stored
telemetry configuration; it is carried to the spawned submission but
plays no part in the call's own result. -/
def wrappedInvoke {A R : Type} (cfg : TelemetryConfig) (proxyActive : Bool)
    (apiKey : String) (orgId : Option String) (methodName : String)
    (timeMs : ℕ) (uuidHex : String) (freshRef : Ref)
    (method : Heap → Kwargs A → CallResult R)
    (heap : Heap) (kwargs : Kwargs A) :
    CallResult R × Heap × List (TelemetryConfig × TelemetrySpawn R) :=
  let requestId := generate_request_id timeMs uuidHex
  let hk := injectStep proxyActive apiKey requestId orgId freshRef heap kwargs
  match method hk.1 hk.2 with
  | .ok v =>
      (.ok v, hk.1, [(cfg, ⟨requestId, methodName, some v, none⟩)])
  | .err e =>
      (.err e, hk.1, [(cfg, ⟨requestId, methodName, none, some e⟩)])

/-- The wrapped client seen through `getattr`: each attribute is either a
callable (`hasattr(attr, "__call__")`), a namespace object with a
`__dict__` of named attributes, or a plain value. -/
inductive ClientNode (A R V : Type) where
  | callable (f : Heap → Kwargs A → CallResult R)
  | namespaceObj (children : List (String × ClientNode A R V))
  | plainValue (v : V)

/-- Attribute lookup on the raw client object (`getattr`). -/
def ClientNode.getattrRaw {A R V : Type} (node : ClientNode A R V) (name : String) :
    Option (ClientNode A R V) :=
  match node with
  | .namespaceObj children =>
      match children.find? (fun c => c.1 = name) with
      | some c => some c.2
      | none => none
  | _ => none

/-- Resolution of a dotted attribute path on the raw client. -/
def ClientNode.resolve {A R V : Type} (node : ClientNode A R V) :
    List String → Option (ClientNode A R V)
  | [] => some node
  | name :: rest =>
    match node.getattrRaw name with
    | some child => child.resolve rest
    | none => none

/-- Invoking `root.p₁.p₂.….pₙ(**kwargs)` directly on the unwrapped
client. -/
def invokeDirect {A R V : Type} (root : ClientNode A R V) (path : List String)
    (heap : Heap) (kwargs : Kwargs A) : Option (CallResult R) :=
  match root.resolve path with
  | some (.callable f) => some (f heap kwargs)
  | _ => none

/-- Invoking the same dotted call through `langmeshWrapper`:
`__getattr__` (wrapper.py lines 71–80) and `_NamespaceWrapper.__getattr__`
(lines 254–262) both return `_wrap_method(attr, name)` for a callable,
a nested `_NamespaceWrapper` sharing the parent wrapper for a namespace
object, and the attribute unchanged otherwise — so a dotted path is
walked through nested namespace wrappers and the leaf callable is
instrumented with the parent wrapper's configuration and the leaf
name. -/
def invokeWrapped {A R V : Type} (cfg : TelemetryConfig) (proxyActive : Bool)
    (apiKey : String) (orgId : Option String)
    (timeMs : ℕ) (uuidHex : String) (freshRef : Ref)
    (root : ClientNode A R V) (path : List String)
    (heap : Heap) (kwargs : Kwargs A) :
    Option (CallResult R × Heap × List (TelemetryConfig × TelemetrySpawn R)) :=
  match root.resolve path.dropLast with
  | some parent =>
    match path.getLast? with
    | some leafName =>
      match parent.getattrRaw leafName with
      | some (.callable f) =>
          some (wrappedInvoke cfg proxyActive apiKey orgId leafName
                  timeMs uuidHex freshRef f heap kwargs)
      | _ => none
    | none => none
  | none => none

/-- `langmeshWrapper.__getattr__` / `_NamespaceWrapper.__getattr__` on a
plain (non-callable, non-namespace) attribute: the value is returned
unmodified. -/
def wrapperGetattrPlain {A R V : Type} (node : ClientNode A R V) (name : String) :
    Option V :=
  match node.getattrRaw name with
  | some (.plainValue v) => some v
  | _ => none

/-! ## Theorems for the claims -/

/-- Helper: evaluation of an admitted `submit` (telemetry enabled, not
paused, draw within the sample rate). -/
theorem submit_admitted (cfg : TelemetryConfig) (h : cfg.enabled = true)
    (buf : List P) (ts : Bool) (d : ℚ) (p : P) (hnot : ¬cfg.sample_rate < d) :
    TelemetryClient.submit cfg ⟨buf, false, ts⟩ d p =
      (⟨buf ++ [p], false, ts⟩, decide (cfg.batch_size ≤ buf.length + 1)) := by
  simp [TelemetryClient.submit, h, hnot]

/-- Helper: while the buffer stays strictly below `batch_size`, a run of
admitted submits (telemetry enabled, not paused, `sample_rate = 1`, all
draws `< 1`) appends the payloads in order and triggers no flush. -/
theorem submitMany_no_trigger (cfg : TelemetryConfig) (h : cfg.enabled = true)
    (hrate : cfg.sample_rate = 1) (pairs : List (ℚ × P))
    (hd : ∀ x ∈ pairs, x.1 < 1) (buf : List P) (ts : Bool)
    (hlen : buf.length + pairs.length < cfg.batch_size) :
    TelemetryClient.submitMany cfg ⟨buf, false, ts⟩ pairs =
      (⟨buf ++ pairs.map Prod.snd, false, ts⟩, 0) := by
  induction pairs generalizing buf with
  | nil => simp [TelemetryClient.submitMany]
  | cons hd' tl ih =>
    obtain ⟨d, p⟩ := hd'
    have hdlt : d < 1 := hd (d, p) (List.mem_cons_self _ _)
    have hnot : ¬cfg.sample_rate < d := by rw [hrate]; exact not_lt.mpr hdlt.le
    have hlen' : buf.length + (tl.length + 1) < cfg.batch_size := by
      simpa using hlen
    have hlen1 : ¬cfg.batch_size ≤ buf.length + 1 := by omega
    have ihres := ih (fun x hx => hd x (List.mem_cons_of_mem _ hx)) (buf ++ [p])
      (by simp only [List.length_append, List.length_cons, List.length_nil]; omega)
    simp only [TelemetryClient.submitMany, submit_admitted cfg h buf ts d p hnot,
      decide_eq_false hlen1, ihres]
    simp

/-- C3: `flush()` atomically removes exactly the buffered events, in
submission (FIFO) order, before any network I/O, leaving the buffer empty
(and touching nothing else); it makes exactly one delivery attempt of the
removed batch when the buffer was non-empty, the resulting state does not
depend on the delivery outcome (a failed batch is dropped, never
restored), and the function has no error channel, so no failure reaches a
caller.  The final clause records that `submit` appends at the tail, so
buffer order is submission order. -/
theorem C3_flush_atomic_silent_drop (P : Type) (net : List P → Bool)
    (st : TelemetryState P) :
    (TelemetryClient.flush net st).1.buffer = [] ∧
    (TelemetryClient.flush net st).1.paused = st.paused ∧
    (TelemetryClient.flush net st).1.timerScheduled = st.timerScheduled ∧
    (st.buffer = [] → TelemetryClient.flush net st = (st, [])) ∧
    (st.buffer ≠ [] →
      (TelemetryClient.flush net st).2 = [(st.buffer, net st.buffer)]) ∧
    (TelemetryClient.flush net st).1 = (TelemetryClient.flush (fun _ => true) st).1 ∧
    (∀ (cfg : TelemetryConfig) (d : ℚ) (p : P), cfg.enabled = true →
      st.paused = false → ¬cfg.sample_rate < d →
      (TelemetryClient.submit cfg st d p).1.buffer = st.buffer ++ [p]) := by
  refine ⟨?_, ?_, ?_, ?_, ?_, ?_, ?_⟩
  · by_cases hb : st.buffer = [] <;> simp [TelemetryClient.flush, hb]
  · by_cases hb : st.buffer = [] <;> simp [TelemetryClient.flush, hb]
  · by_cases hb : st.buffer = [] <;> simp [TelemetryClient.flush, hb]
  · intro hb; simp [TelemetryClient.flush, hb]
  · intro hb; simp [TelemetryClient.flush, hb]
  · by_cases hb : st.buffer = [] <;> simp [TelemetryClient.flush, hb]
  · intro cfg d p hen hp hdraw
    simp [TelemetryClient.submit, hen, hp, hdraw]

theorem C3_flush_atomic_silent_drop_witness :
    (TelemetryClient.flush (fun _ => true) ⟨[(5 : ℕ)], false, true⟩).1.buffer = [] ∧
    (TelemetryClient.flush (fun _ => true) ⟨[(5 : ℕ)], false, true⟩).2 =
      [([5], true)] ∧
    (TelemetryClient.submit { sample_rate := 1 }
        (⟨[(5 : ℕ)], false, true⟩ : TelemetryState ℕ) 0 7).1.buffer = [5, 7] := by
  have h := C3_flush_atomic_silent_drop ℕ (fun _ => true) ⟨[5], false, true⟩
  refine ⟨h.1, h.2.2.2.2.1 (by simp), ?_⟩
  have h7 := h.2.2.2.2.2.2 { sample_rate := 1 } 0 7 rfl rfl (by norm_num)
  simpa using h7

/-- C4: with `batch_size = B`, telemetry enabled, not paused and
`sample_rate = 1`, submitting the first `B-1` events (draws in `[0,1)`)
triggers no flush and leaves exactly those events buffered in order;
the B-th submission triggers exactly one asynchronous flush, and running
that flush delivers exactly the B submitted events and empties the
buffer. -/
theorem C4_batching_threshold (P : Type) (cfg : TelemetryConfig)
    (net : List P → Bool) (es' : List P) (p : P) (ds' : List ℚ) (d : ℚ)
    (hen : cfg.enabled = true) (hrate : cfg.sample_rate = 1)
    (hlen : ds'.length = es'.length) (hds : ∀ x ∈ ds', x < 1) (hd : d < 1)
    (hB : es'.length + 1 = cfg.batch_size) :
    (TelemetryClient.submitMany cfg (TelemetryClient.init cfg) (ds'.zip es')).2 = 0 ∧
    (TelemetryClient.submitMany cfg (TelemetryClient.init cfg) (ds'.zip es')).1.buffer = es' ∧
    (TelemetryClient.submit cfg
      (TelemetryClient.submitMany cfg (TelemetryClient.init cfg) (ds'.zip es')).1 d p).2 = true ∧
    (TelemetryClient.submit cfg
      (TelemetryClient.submitMany cfg (TelemetryClient.init cfg) (ds'.zip es')).1 d p).1.buffer =
      es' ++ [p] ∧
    TelemetryClient.flush net
      (TelemetryClient.submit cfg
        (TelemetryClient.submitMany cfg (TelemetryClient.init cfg) (ds'.zip es')).1 d p).1 =
      (⟨[], false, cfg.enabled⟩, [(es' ++ [p], net (es' ++ [p]))]) := by
  have hzip : ∀ x ∈ ds'.zip es', x.1 < 1 := by
    intro x hx
    exact hds x.1 (List.of_mem_zip hx).1
  have hmap : (ds'.zip es').map Prod.snd = es' := List.map_snd_zip ds' es' hlen.ge
  have hziplen : (ds'.zip es').length = es'.length := by
    simp [List.length_zip, hlen]
  have hrun : TelemetryClient.submitMany cfg (TelemetryClient.init cfg) (ds'.zip es') =
      (⟨es', false, cfg.enabled⟩, 0) := by
    have hr := submitMany_no_trigger cfg hen hrate (ds'.zip es') hzip [] cfg.enabled
      (by simp only [List.length_nil, Nat.zero_add, hziplen]; omega)
    simpa [TelemetryClient.init, hmap] using hr
  have hnot : ¬cfg.sample_rate < d := by rw [hrate]; exact not_lt.mpr hd.le
  have hfull : cfg.batch_size ≤ es'.length + 1 := by omega
  have hsub : TelemetryClient.submit cfg (⟨es', false, cfg.enabled⟩ : TelemetryState P) d p =
      (⟨es' ++ [p], false, cfg.enabled⟩, true) := by
    rw [submit_admitted cfg hen es' cfg.enabled d p hnot, decide_eq_true hfull]
  have hne : ((es' ++ [p] : List P).isEmpty = true) = False := by
    simp
  rw [hrun, hsub]
  refine ⟨rfl, rfl, rfl, rfl, ?_⟩
  simp [TelemetryClient.flush]

theorem C4_batching_threshold_witness :
    (TelemetryClient.submitMany
      { sample_rate := 1, batch_size := 3 }
      (TelemetryClient.init { sample_rate := 1, batch_size := 3 })
      ([(0, 1), (1/2, 2)] : List (ℚ × ℕ))).2 = 0 ∧
    (TelemetryClient.submit { sample_rate := 1, batch_size := 3 }
      (TelemetryClient.submitMany { sample_rate := 1, batch_size := 3 }
        (TelemetryClient.init { sample_rate := 1, batch_size := 3 })
        ([(0, 1), (1/2, 2)] : List (ℚ × ℕ))).1 (1/2) 3).2 = true ∧
    TelemetryClient.flush (fun _ => true)
      (TelemetryClient.submit { sample_rate := 1, batch_size := 3 }
        (TelemetryClient.submitMany { sample_rate := 1, batch_size := 3 }
          (TelemetryClient.init { sample_rate := 1, batch_size := 3 })
          ([(0, 1), (1/2, 2)] : List (ℚ × ℕ))).1 (1/2) 3).1 =
      (⟨[], false, true⟩, [([1, 2, 3], true)]) := by
  have h := C4_batching_threshold ℕ { sample_rate := 1, batch_size := 3 }
    (fun _ => true) [1, 2] 3 [0, 1/2] (1/2) rfl rfl rfl
    (by intro x hx; fin_cases hx <;> norm_num) (by norm_num) rfl
  exact ⟨h.1, h.2.2.1, h.2.2.2.2⟩

/-- C5 counterexample: starting from a client constructed with telemetry
enabled (`timerScheduled = true`), the reachable sequence
`pause(); tick` leaves the system with no pending periodic flush timer:
the tick that fires while paused does not reschedule, contradicting the
claim that after any sequence of pause/resume/ticks a next periodic
flush tick is still scheduled. -/
theorem C5_counterexample :
    (TelemetryClient.init (P := ℕ) {}).timerScheduled = true ∧
    (TelemetryClient.runOps (P := ℕ) {} (fun _ => true)
      (TelemetryClient.init {}) [TOp.pause, TOp.tick]).timerScheduled = false := by
  constructor
  · rfl
  · rfl

/-- C5 (amended): `pause()` and `resume()` only toggle the admission flag
— they leave the buffer and the pending-timer state untouched, so
pausing does not by itself cancel the timer; but a periodic tick that
fires reschedules the next tick exactly when the client is enabled and
not paused, so the first tick that fires while paused stops the periodic
flush until `destroy()` (and `resume()` does not restart it). -/
theorem C5_pause_and_flush_timer (P : Type) (cfg : TelemetryConfig)
    (net : List P → Bool) (st : TelemetryState P) :
    TelemetryClient.pause st = { st with paused := true } ∧
    TelemetryClient.resume st = { st with paused := false } ∧
    (st.timerScheduled = true →
      (TelemetryClient.tick cfg net st).1.timerScheduled =
        (cfg.enabled && !st.paused)) ∧
    (st.timerScheduled = true → st.paused = true →
      (TelemetryClient.tick cfg net st).1.timerScheduled = false) ∧
    (st.timerScheduled = true → cfg.enabled = true → st.paused = false →
      (TelemetryClient.tick cfg net st).1.timerScheduled = true) := by
  refine ⟨rfl, rfl, ?_, ?_, ?_⟩
  · intro hts
    simp [TelemetryClient.tick, hts]
  · intro hts hp
    simp [TelemetryClient.tick, hts, hp]
  · intro hts hen hp
    simp [TelemetryClient.tick, hts, hen, hp]

theorem C5_pause_and_flush_timer_witness :
    (TelemetryClient.tick (P := ℕ) {} (fun _ => true)
      ⟨[], true, true⟩).1.timerScheduled = false ∧
    (TelemetryClient.tick (P := ℕ) {} (fun _ => true)
      ⟨[], false, true⟩).1.timerScheduled = true := by
  have h1 := C5_pause_and_flush_timer ℕ {} (fun _ => true) ⟨[], true, true⟩
  have h2 := C5_pause_and_flush_timer ℕ {} (fun _ => true) ⟨[], false, true⟩
  exact ⟨h1.2.2.2.1 rfl rfl, h2.2.2.2.2 rfl rfl rfl⟩

/-- C6 counterexample: `submit` drops an event only when the draw is
strictly greater than `sample_rate`; with `sample_rate = 0` the possible
draw `0.0` of `random.random()` (which ranges over `[0,1)`) passes the
check and the event is appended to the buffer — so it is not true that
no draw ever admits an event at `sample_rate = 0`. -/
theorem C6_counterexample :
    (0 : ℚ) ≤ 0 ∧ (0 : ℚ) < 1 ∧
    (TelemetryClient.submit { sample_rate := 0 }
      (TelemetryClient.init { sample_rate := 0 }) 0 (42 : ℕ)).1.buffer = [42] := by
  refine ⟨le_refl 0, by norm_num, ?_⟩
  simp [TelemetryClient.submit, TelemetryClient.init]

/-- C6 (amended): with telemetry enabled and not paused, at
`sample_rate = 0` a submit is dropped for every draw `> 0` and admitted
exactly at the boundary draw `0`; at `sample_rate = 1` every submit
(draws range over `[0,1)`) appends exactly its event to the buffer. -/
theorem C6_sampling_boundaries (P : Type) (cfg : TelemetryConfig)
    (st : TelemetryState P) (d : ℚ) (p : P)
    (hen : cfg.enabled = true) (hp : st.paused = false) :
    (cfg.sample_rate = 0 → 0 < d →
      TelemetryClient.submit cfg st d p = (st, false)) ∧
    (cfg.sample_rate = 0 → d = 0 →
      (TelemetryClient.submit cfg st d p).1.buffer = st.buffer ++ [p]) ∧
    (cfg.sample_rate = 1 → d < 1 →
      (TelemetryClient.submit cfg st d p).1.buffer = st.buffer ++ [p]) := by
  refine ⟨?_, ?_, ?_⟩
  · intro hr hd
    simp [TelemetryClient.submit, hen, hp, hr, hd]
  · intro hr hd
    subst hd
    simp [TelemetryClient.submit, hen, hp, hr]
  · intro hr hd
    have hnot : ¬cfg.sample_rate < d := by rw [hr]; exact not_lt.mpr hd.le
    simp [TelemetryClient.submit, hen, hp, hnot]

theorem C6_sampling_boundaries_witness :
    TelemetryClient.submit { sample_rate := 0 }
      (⟨[], false, true⟩ : TelemetryState ℕ) (1/2) 9 = (⟨[], false, true⟩, false) ∧
    (TelemetryClient.submit { sample_rate := 1 }
      (⟨[], false, true⟩ : TelemetryState ℕ) (1/2) 9).1.buffer = [9] := by
  have h := C6_sampling_boundaries ℕ { sample_rate := 0 } ⟨[], false, true⟩ (1/2) 9 rfl rfl
  have h' := C6_sampling_boundaries ℕ { sample_rate := 1 } ⟨[], false, true⟩ (1/2) 9 rfl rfl
  refine ⟨h.1 rfl (by norm_num), ?_⟩
  have := h'.2.2 rfl (by norm_num)
  simpa using this

/-- C7: the sample rate is not validated anywhere at construction: the
wrapper constructor stores an out-of-range `sample_rate = 2` verbatim in
the `TelemetryConfig` it builds (no clamping into [0,1], no rejection),
and the stored value is then used by the sampling check — with it, a
submit is admitted even at the maximal possible draw. -/
theorem C7_sample_rate_not_validated :
    (langmeshWrapper_init_config "sk_test" none none true false 2 false true).telemetry.sample_rate = 2 ∧
    ¬((langmeshWrapper_init_config "sk_test" none none true false 2 false true).telemetry.sample_rate ≤ 1) ∧
    (TelemetryClient.submit
      (langmeshWrapper_init_config "sk_test" none none true false 2 false true).telemetry
      (TelemetryClient.init
        (langmeshWrapper_init_config "sk_test" none none true false 2 false true).telemetry)
      (999999/1000000) (7 : ℕ)).1.buffer = [7] := by
  have hcfg : (langmeshWrapper_init_config "sk_test" none none true false 2 false
      true).telemetry = { sample_rate := 2 } := rfl
  refine ⟨rfl, by rw [hcfg]; norm_num, ?_⟩
  have hnot : ¬(2 : ℚ) < 999999/1000000 := by norm_num
  rw [hcfg]
  simp [TelemetryClient.submit, TelemetryClient.init, hnot]

/-- C8 counterexample: for the unknown model `"model-x"` at zero tokens
the fallback-rate cost is `0`, which is not a positive value — refuting
the claim that every unknown-model cost at non-negative token counts is
positive. -/
theorem C8_counterexample :
    lookupPricing MODEL_PRICING "model-x" = none ∧
    ¬(0 < calculate_cost "model-x" 0 0) := by
  have hm : lookupPricing MODEL_PRICING "model-x" = none := rfl
  refine ⟨hm, ?_⟩
  simp [calculate_cost, hm]

/-- C8 (amended): `calculate_cost "gpt-4o" 1000 500` equals
`(1000/10⁶)·2.5 + (500/10⁶)·10` exactly (hence within any tolerance,
in particular `10⁻⁹`); for every model name absent from the price table
the cost is the flat fallback rate `0.00001` applied to the token sum —
non-negative always, and strictly positive whenever the token sum is
positive; and the function is total and non-negative on all inputs. -/
theorem C8_cost_determinism_and_fallback :
    calculate_cost "gpt-4o" 1000 500 =
      ((1000 : ℚ) / 1000000) * 2.5 + ((500 : ℚ) / 1000000) * 10 ∧
    |calculate_cost "gpt-4o" 1000 500 -
      (((1000 : ℚ) / 1000000) * 2.5 + ((500 : ℚ) / 1000000) * 10)| ≤ 1/1000000000 ∧
    (∀ (m : String) (p c : ℕ), lookupPricing MODEL_PRICING m = none →
      calculate_cost m p c = ((p : ℚ) + (c : ℚ)) * 0.00001 ∧
      (0 < p + c → 0 < calculate_cost m p c)) ∧
    (∀ (m : String) (p c : ℕ), 0 ≤ calculate_cost m p c) := by
  have hg : lookupPricing MODEL_PRICING "gpt-4o" = some (2.5, 10.0) := rfl
  refine ⟨?_, ?_, ?_, fun m p c => calculate_cost_nonneg m p c⟩
  · simp only [calculate_cost, hg]
    norm_num
  · simp only [calculate_cost, hg]
    norm_num
  · intro m p c hm
    constructor
    · simp [calculate_cost, hm]
    · intro hpc
      have : (0 : ℚ) < (p : ℚ) + (c : ℚ) := by
        have : 0 < ((p + c : ℕ) : ℚ) := by exact_mod_cast Nat.cast_pos.mpr hpc
        push_cast at this
        linarith
      simp only [calculate_cost, hm]
      positivity

theorem C8_cost_determinism_and_fallback_witness :
    calculate_cost "model-x" 2 3 = ((2 : ℚ) + 3) * 0.00001 ∧
    0 < calculate_cost "model-x" 2 3 := by
  have h := (C8_cost_determinism_and_fallback.2.2.1 "model-x" 2 3 rfl)
  exact ⟨by simpa using h.1, h.2 (by norm_num)⟩

/-! ### Lemmas about path resolution and header injection -/

theorem ClientNode.resolve_concat {A R V : Type} (node : ClientNode A R V)
    (path : List String) (name : String) :
    node.resolve (path ++ [name]) =
      (node.resolve path).bind (fun x => x.getattrRaw name) := by
  induction path generalizing node with
  | nil =>
    simp only [List.nil_append, ClientNode.resolve, Option.bind]
    cases node.getattrRaw name with
    | none => rfl
    | some child => rfl
  | cons hd tl ih =>
    simp only [List.cons_append, ClientNode.resolve]
    cases node.getattrRaw hd with
    | none => rfl
    | some child => exact ih child

theorem dictGet_injectProxyHeaders_api (apiKey requestId : String)
    (orgId : Option String) (d : Headers) :
    dictGet (injectProxyHeaders apiKey requestId orgId d) "X-langmesh-API-Key" =
      some apiKey := by
  unfold injectProxyHeaders
  rw [dictGet_dictInsert_ne _ _ _ _ (by decide), dictGet_dictInsert_ne _ _ _ _ (by decide),
    dictGet_dictInsert_self]

theorem dictGet_injectProxyHeaders_req (apiKey requestId : String)
    (orgId : Option String) (d : Headers) :
    dictGet (injectProxyHeaders apiKey requestId orgId d) "X-langmesh-Request-ID" =
      some requestId := by
  unfold injectProxyHeaders
  rw [dictGet_dictInsert_ne _ _ _ _ (by decide), dictGet_dictInsert_self]

theorem dictGet_injectProxyHeaders_org (apiKey requestId : String)
    (orgId : Option String) (d : Headers) :
    dictGet (injectProxyHeaders apiKey requestId orgId d) "X-langmesh-Org-ID" =
      some (match orgId with | some o => o | none => "") := by
  unfold injectProxyHeaders
  rw [dictGet_dictInsert_self]

theorem dictGet_injectProxyHeaders_unrelated (apiKey requestId : String)
    (orgId : Option String) (d : Headers) (k : String)
    (h1 : k ≠ "X-langmesh-API-Key") (h2 : k ≠ "X-langmesh-Request-ID")
    (h3 : k ≠ "X-langmesh-Org-ID") :
    dictGet (injectProxyHeaders apiKey requestId orgId d) k = dictGet d k := by
  unfold injectProxyHeaders
  rw [dictGet_dictInsert_ne _ _ _ _ h3, dictGet_dictInsert_ne _ _ _ _ h2,
    dictGet_dictInsert_ne _ _ _ _ h1]

/-- C1: whatever the telemetry configuration and whether or not proxy mode
is active, if the underlying callable reached through any attribute path
— invoked exactly as the wrapper invokes it, i.e. on the caller's
arguments with proxy headers injected only when proxy mode is on —
returns the value `v`, then invoking the same dotted call through
`langmeshWrapper` / `_NamespaceWrapper` returns exactly `v`, unmodified,
with the telemetry spawn off the return path. -/
theorem C1_transparency (A R V : Type) (cfg : TelemetryConfig) (proxyActive : Bool)
    (apiKey : String) (orgId : Option String) (timeMs : ℕ) (uuidHex : String)
    (freshRef : Ref) (root : ClientNode A R V) (path : List String)
    (heap : Heap) (kwargs : Kwargs A) (v : R) (hne : path ≠ [])
    (hok : invokeDirect root path
      (injectStep proxyActive apiKey (generate_request_id timeMs uuidHex) orgId
        freshRef heap kwargs).1
      (injectStep proxyActive apiKey (generate_request_id timeMs uuidHex) orgId
        freshRef heap kwargs).2 = some (CallResult.ok v)) :
    invokeWrapped cfg proxyActive apiKey orgId timeMs uuidHex freshRef root path
        heap kwargs =
      some (CallResult.ok v,
        (injectStep proxyActive apiKey (generate_request_id timeMs uuidHex) orgId
          freshRef heap kwargs).1,
        [(cfg, ⟨generate_request_id timeMs uuidHex, path.getLast hne,
          some v, none⟩)]) := by
  have hsplit : path.dropLast ++ [path.getLast hne] = path :=
    List.dropLast_append_getLast hne
  have hlast : path.getLast? = some (path.getLast hne) :=
    List.getLast?_eq_getLast path hne
  unfold invokeDirect at hok
  cases hres : root.resolve path with
  | none => rw [hres] at hok; simp at hok
  | some node =>
    rw [hres] at hok
    cases node with
    | namespaceObj children => simp at hok
    | plainValue v' => simp at hok
    | callable f =>
      simp only [Option.some_inj] at hok
      have hconcat := ClientNode.resolve_concat root path.dropLast (path.getLast hne)
      rw [hsplit, hres] at hconcat
      cases hpar : root.resolve path.dropLast with
      | none => rw [hpar] at hconcat; simp [Option.bind] at hconcat
      | some parent =>
        rw [hpar] at hconcat
        simp only [Option.bind] at hconcat
        simp only [invokeWrapped, hpar, hlast, ← hconcat, wrappedInvoke, hok]

theorem C1_transparency_witness :
    invokeWrapped (A := Unit) (R := ℕ) (V := Unit) {} false "sk" none 0 "0123456789" 0
      (ClientNode.namespaceObj
        [("chat", ClientNode.namespaceObj
          [("create", ClientNode.callable (fun _ _ => CallResult.ok 99))])])
      ["chat", "create"] (fun _ => []) ⟨none, ()⟩ =
    some (CallResult.ok 99, fun _ => ([] : Headers),
      [({}, ⟨generate_request_id 0 "0123456789", "create", some 99, none⟩)]) := by
  have h := C1_transparency Unit ℕ Unit {} false "sk" none 0 "0123456789" 0
    (ClientNode.namespaceObj
      [("chat", ClientNode.namespaceObj
        [("create", ClientNode.callable (fun _ _ => CallResult.ok 99))])])
    ["chat", "create"] (fun _ => []) ⟨none, ()⟩ 99 (by simp) rfl
  exact h

/-- C2: whatever the telemetry configuration and whether or not proxy mode
is active, if the underlying callable raises the error `e`, the wrapped
call re-raises exactly `e` — the same error, with the same type name and
message, never swallowed, wrapped or transformed — and the telemetry
spawned for the call captures that same type name and message. -/
theorem C2_error_fidelity (A R V : Type) (cfg : TelemetryConfig) (proxyActive : Bool)
    (apiKey : String) (orgId : Option String) (timeMs : ℕ) (uuidHex : String)
    (freshRef : Ref) (root : ClientNode A R V) (path : List String)
    (heap : Heap) (kwargs : Kwargs A) (e : PyError) (hne : path ≠ [])
    (herr : invokeDirect root path
      (injectStep proxyActive apiKey (generate_request_id timeMs uuidHex) orgId
        freshRef heap kwargs).1
      (injectStep proxyActive apiKey (generate_request_id timeMs uuidHex) orgId
        freshRef heap kwargs).2 = some (CallResult.err e)) :
    invokeWrapped cfg proxyActive apiKey orgId timeMs uuidHex freshRef root path
        heap kwargs =
      some (CallResult.err e,
        (injectStep proxyActive apiKey (generate_request_id timeMs uuidHex) orgId
          freshRef heap kwargs).1,
        [(cfg, ⟨generate_request_id timeMs uuidHex, path.getLast hne,
          none, some e⟩)]) := by
  have hsplit : path.dropLast ++ [path.getLast hne] = path :=
    List.dropLast_append_getLast hne
  have hlast : path.getLast? = some (path.getLast hne) :=
    List.getLast?_eq_getLast path hne
  unfold invokeDirect at herr
  cases hres : root.resolve path with
  | none => rw [hres] at herr; simp at herr
  | some node =>
    rw [hres] at herr
    cases node with
    | namespaceObj children => simp at herr
    | plainValue v' => simp at herr
    | callable f =>
      simp only [Option.some_inj] at herr
      have hconcat := ClientNode.resolve_concat root path.dropLast (path.getLast hne)
      rw [hsplit, hres] at hconcat
      cases hpar : root.resolve path.dropLast with
      | none => rw [hpar] at hconcat; simp [Option.bind] at hconcat
      | some parent =>
        rw [hpar] at hconcat
        simp only [Option.bind] at hconcat
        simp only [invokeWrapped, hpar, hlast, ← hconcat, wrappedInvoke, herr]

theorem C2_error_fidelity_witness :
    invokeWrapped (A := Unit) (R := ℕ) (V := Unit) {} true "sk" none 0 "0123456789" 0
      (ClientNode.namespaceObj
        [("create", ClientNode.callable (fun _ _ =>
          CallResult.err ⟨"RateLimitError", "Rate limit exceeded"⟩))])
      ["create"] (fun _ => []) ⟨none, ()⟩ =
    some (CallResult.err ⟨"RateLimitError", "Rate limit exceeded"⟩,
      (injectStep true "sk" (generate_request_id 0 "0123456789") none 0
        (fun _ => []) (⟨none, ()⟩ : Kwargs Unit)).1,
      [({}, ⟨generate_request_id 0 "0123456789", "create", none,
        some ⟨"RateLimitError", "Rate limit exceeded"⟩⟩)]) := by
  have h := C2_error_fidelity Unit ℕ Unit {} true "sk" none 0 "0123456789" 0
    (ClientNode.namespaceObj
      [("create", ClientNode.callable (fun _ _ =>
        CallResult.err ⟨"RateLimitError", "Rate limit exceeded"⟩))])
    ["create"] (fun _ => []) ⟨none, ()⟩ ⟨"RateLimitError", "Rate limit exceeded"⟩
    (by simp) rfl
  exact h

/-- C9: with proxy mode enabled and `org_id = "org_test"`, the header-injection
step of every instrumented call leaves the call's `extra_headers` dict
holding an org-id header (`X-langmesh-Org-ID`) equal to `"org_test"` and a
request-id header (`X-langmesh-Request-ID`) whose value is exactly an
output of the request-id generator; every caller-supplied header under a
key other than the three injected ones keeps its original value; with
proxy mode disabled the step adds nothing at all (heap and kwargs are
returned untouched); and in both modes the heap the underlying callable
and the caller observe is exactly the heap this step produces. -/
theorem C9_header_injection (A : Type) (apiKey : String)
    (timeMs : ℕ) (uuidHex : String) (freshRef : Ref) (heap : Heap)
    (kwargs : Kwargs A) :
    (∃ r, (injectStep true apiKey (generate_request_id timeMs uuidHex)
        (some "org_test") freshRef heap kwargs).2.extraHeaders = some r ∧
      dictGet ((injectStep true apiKey (generate_request_id timeMs uuidHex)
        (some "org_test") freshRef heap kwargs).1 r) "X-langmesh-Org-ID" =
        some "org_test" ∧
      dictGet ((injectStep true apiKey (generate_request_id timeMs uuidHex)
        (some "org_test") freshRef heap kwargs).1 r) "X-langmesh-Request-ID" =
        some (generate_request_id timeMs uuidHex) ∧
      RequestIdFormat (generate_request_id timeMs uuidHex) ∧
      (∀ k : String, k ≠ "X-langmesh-API-Key" → k ≠ "X-langmesh-Request-ID" →
        k ≠ "X-langmesh-Org-ID" →
        dictGet ((injectStep true apiKey (generate_request_id timeMs uuidHex)
          (some "org_test") freshRef heap kwargs).1 r) k =
        dictGet (match kwargs.extraHeaders with
                 | some r0 => heap r0
                 | none => []) k)) ∧
    (∀ (orgId : Option String),
      injectStep false apiKey (generate_request_id timeMs uuidHex) orgId
        freshRef heap kwargs = (heap, kwargs)) ∧
    (∀ (R : Type) (cfg : TelemetryConfig) (proxyActive : Bool)
      (orgId : Option String) (name : String)
      (method : Heap → Kwargs A → CallResult R),
      (wrappedInvoke cfg proxyActive apiKey orgId name timeMs uuidHex freshRef
        method heap kwargs).2.1 =
      (injectStep proxyActive apiKey (generate_request_id timeMs uuidHex) orgId
        freshRef heap kwargs).1) := by
  refine ⟨?_, ?_, ?_⟩
  · cases hk : kwargs.extraHeaders with
    | some r0 =>
      refine ⟨r0, ?_, ?_, ?_, ⟨timeMs, uuidHex, rfl⟩, ?_⟩
      · simp [injectStep, hk]
      · simp [injectStep, hk, heapUpdate, dictGet_injectProxyHeaders_org]
      · simp [injectStep, hk, heapUpdate, dictGet_injectProxyHeaders_req]
      · intro k h1 h2 h3
        simp [injectStep, hk, heapUpdate,
          dictGet_injectProxyHeaders_unrelated _ _ _ _ _ h1 h2 h3]
    | none =>
      refine ⟨freshRef, ?_, ?_, ?_, ⟨timeMs, uuidHex, rfl⟩, ?_⟩
      · simp [injectStep, hk]
      · simp [injectStep, hk, heapUpdate, dictGet_injectProxyHeaders_org]
      · simp [injectStep, hk, heapUpdate, dictGet_injectProxyHeaders_req]
      · intro k h1 h2 h3
        simp [injectStep, hk, heapUpdate,
          dictGet_injectProxyHeaders_unrelated _ _ _ _ _ h1 h2 h3]
  · intro orgId
    simp [injectStep]
  · intro R cfg proxyActive orgId name method
    simp only [wrappedInvoke]
    cases method (injectStep proxyActive apiKey (generate_request_id timeMs uuidHex)
        orgId freshRef heap kwargs).1
      (injectStep proxyActive apiKey (generate_request_id timeMs uuidHex)
        orgId freshRef heap kwargs).2 with
    | ok v => rfl
    | err e => rfl

theorem C9_header_injection_witness :
    (∃ r, (injectStep true "sk" (generate_request_id 3 "abcdef012345") (some "org_test") 7
        (fun _ => []) (⟨some 4, ()⟩ : Kwargs Unit)).2.extraHeaders = some r ∧
      dictGet ((injectStep true "sk" (generate_request_id 3 "abcdef012345") (some "org_test") 7
        (fun _ => []) (⟨some 4, ()⟩ : Kwargs Unit)).1 r) "X-langmesh-Org-ID" =
        some "org_test") ∧
    injectStep false "sk" (generate_request_id 3 "abcdef012345") (some "org_test") 7
      (fun _ => []) (⟨some 4, ()⟩ : Kwargs Unit) = (fun _ => [], ⟨some 4, ()⟩) := by
  have h := C9_header_injection Unit "sk" 3 "abcdef012345" 7 (fun _ => [])
    (⟨some 4, ()⟩ : Kwargs Unit)
  obtain ⟨⟨r, hr1, hr2, _⟩, h2, _⟩ := h
  exact ⟨⟨r, hr1, hr2⟩, h2 (some "org_test")⟩

/-- C10 (implicit frame effect): with proxy mode active and a
caller-supplied `extra_headers` dict, the wrapper mutates that very dict
object in place before invoking the underlying callable: the kwargs
still reference the caller's own dict (no copy), the dict afterwards
contains `X-langmesh-API-Key`, `X-langmesh-Request-ID` and
`X-langmesh-Org-ID` with the SDK's values — overwriting any
caller-supplied values under exactly those three keys — every entry
under any other key is unchanged, every other heap object is untouched,
and the heap the whole wrapped call leaves behind is exactly this
mutated one. -/
theorem C10_extra_headers_mutated_in_place (A : Type) (apiKey : String)
    (orgId : Option String) (timeMs : ℕ) (uuidHex : String) (freshRef : Ref)
    (heap : Heap) (kwargs : Kwargs A) (r0 : Ref)
    (hk : kwargs.extraHeaders = some r0) :
    (injectStep true apiKey (generate_request_id timeMs uuidHex) orgId
      freshRef heap kwargs).2 = kwargs ∧
    dictGet ((injectStep true apiKey (generate_request_id timeMs uuidHex) orgId
      freshRef heap kwargs).1 r0) "X-langmesh-API-Key" = some apiKey ∧
    dictGet ((injectStep true apiKey (generate_request_id timeMs uuidHex) orgId
      freshRef heap kwargs).1 r0) "X-langmesh-Request-ID" =
      some (generate_request_id timeMs uuidHex) ∧
    dictGet ((injectStep true apiKey (generate_request_id timeMs uuidHex) orgId
      freshRef heap kwargs).1 r0) "X-langmesh-Org-ID" =
      some (match orgId with | some o => o | none => "") ∧
    (∀ k : String, k ≠ "X-langmesh-API-Key" → k ≠ "X-langmesh-Request-ID" →
      k ≠ "X-langmesh-Org-ID" →
      dictGet ((injectStep true apiKey (generate_request_id timeMs uuidHex) orgId
        freshRef heap kwargs).1 r0) k = dictGet (heap r0) k) ∧
    (∀ r' : Ref, r' ≠ r0 →
      (injectStep true apiKey (generate_request_id timeMs uuidHex) orgId
        freshRef heap kwargs).1 r' = heap r') ∧
    (∀ (R : Type) (cfg : TelemetryConfig) (name : String)
      (method : Heap → Kwargs A → CallResult R),
      (wrappedInvoke cfg true apiKey orgId name timeMs uuidHex freshRef
        method heap kwargs).2.1 =
      (injectStep true apiKey (generate_request_id timeMs uuidHex) orgId
        freshRef heap kwargs).1) := by
  refine ⟨?_, ?_, ?_, ?_, ?_, ?_, ?_⟩
  · simp [injectStep, hk]
  · simp [injectStep, hk, heapUpdate, dictGet_injectProxyHeaders_api]
  · simp [injectStep, hk, heapUpdate, dictGet_injectProxyHeaders_req]
  · simp [injectStep, hk, heapUpdate, dictGet_injectProxyHeaders_org]
  · intro k h1 h2 h3
    simp [injectStep, hk, heapUpdate,
      dictGet_injectProxyHeaders_unrelated _ _ _ _ _ h1 h2 h3]
  · intro r' hr'
    simp [injectStep, hk, heapUpdate, hr']
  · intro R cfg name method
    simp only [wrappedInvoke]
    cases method (injectStep true apiKey (generate_request_id timeMs uuidHex)
        orgId freshRef heap kwargs).1
      (injectStep true apiKey (generate_request_id timeMs uuidHex)
        orgId freshRef heap kwargs).2 with
    | ok v => rfl
    | err e => rfl

theorem C10_extra_headers_mutated_in_place_witness :
    (injectStep true "sk" (generate_request_id 3 "abcdef012345") (some "o") 7
      (fun _ => [("User-Agent", "x"), ("X-langmesh-Org-ID", "caller")])
      (⟨some 4, ()⟩ : Kwargs Unit)).2 = (⟨some 4, ()⟩ : Kwargs Unit) ∧
    dictGet ((injectStep true "sk" (generate_request_id 3 "abcdef012345") (some "o") 7
      (fun _ => [("User-Agent", "x"), ("X-langmesh-Org-ID", "caller")])
      (⟨some 4, ()⟩ : Kwargs Unit)).1 4) "X-langmesh-Org-ID" = some "o" ∧
    dictGet ((injectStep true "sk" (generate_request_id 3 "abcdef012345") (some "o") 7
      (fun _ => [("User-Agent", "x"), ("X-langmesh-Org-ID", "caller")])
      (⟨some 4, ()⟩ : Kwargs Unit)).1 4) "User-Agent" = some "x" := by
  have h := C10_extra_headers_mutated_in_place Unit "sk" (some "o") 3 "abcdef012345" 7
    (fun _ => [("User-Agent", "x"), ("X-langmesh-Org-ID", "caller")])
    (⟨some 4, ()⟩ : Kwargs Unit) 4 rfl
  exact ⟨h.1, h.2.2.2.1,
    h.2.2.2.2.1 "User-Agent" (by decide) (by decide) (by decide)⟩

end SkewOpenAI
